import Mathlib

/-!
# Verification of the PDcracktip crack-tip locator

Shallow embedding of `PDcracktip.py`, a ParaView filter that scans a point
set carrying a scalar phase-field array and reports the qualifying point
(inside an inclusive axis-aligned region, field value strictly above a
critical threshold) farthest from a reference location.

Python floats are modelled as rationals `ℚ`; the algorithm uses only
comparisons, subtraction, multiplication and addition, so exact arithmetic
is faithful to the algorithm's branch structure.  The VTK point indexing
`block.GetPoint(i)` / `phase_field_array.GetValue(i)` over
`range(block.GetNumberOfPoints())` is modelled by zipping the coordinate
list with the field-value list.  Informational `print` calls are not
modelled; the two error diagnostics (missing array, unsupported input
type) are, as they carry the error-handling contract.
-/

/-- A 3D point, as returned by `block.GetPoint(i)`. -/
structure Point3 where
  x : ℚ
  y : ℚ
  z : ℚ
deriving DecidableEq

/-- The configuration read by the scan: `self._d_c`, `self._initial_tip`,
`self._region_min`, `self._region_max`. -/
structure ScanConfig where
  d_c : ℚ
  initial_tip : Point3
  region_min : Point3
  region_max : Point3
deriving DecidableEq

/-- The inclusive region test of lines 98-100:
`region_min[k] <= point[k] <= region_max[k]` for k = 0,1,2. -/
def inRegion (rmin rmax p : Point3) : Prop :=
  rmin.x ≤ p.x ∧ p.x ≤ rmax.x ∧
  rmin.y ≤ p.y ∧ p.y ≤ rmax.y ∧
  rmin.z ≤ p.z ∧ p.z ≤ rmax.z

instance (rmin rmax p : Point3) : Decidable (inRegion rmin rmax p) := by
  unfold inRegion; exact inferInstance

/-- The full qualifying predicate of lines 98-101: inside the region and
`phase_field_array.GetValue(i) > self._d_c` (strict). -/
def qualifies (cfg : ScanConfig) (p : Point3) (v : ℚ) : Prop :=
  inRegion cfg.region_min cfg.region_max p ∧ cfg.d_c < v

instance (cfg : ScanConfig) (p : Point3) (v : ℚ) : Decidable (qualifies cfg p v) := by
  unfold qualifies; exact inferInstance

/-- Squared Euclidean distance, lines 102-106. -/
def distSq (p q : Point3) : ℚ :=
  (p.x - q.x) ^ 2 + (p.y - q.y) ^ 2 + (p.z - q.z) ^ 2

/-- One iteration of the loop of lines 96-109, acting on the running
accumulator `(global_max_distance_sq, global_current_tip)`. -/
def scanStep (cfg : ScanConfig) (acc : ℚ × Point3) (pv : Point3 × ℚ) : ℚ × Point3 :=
  if qualifies cfg pv.1 pv.2 then
    let dsq := distSq pv.1 cfg.initial_tip
    if acc.1 < dsq then (dsq, pv.1) else acc
  else acc

/-- The whole loop of lines 96-109. -/
def scanBlock (cfg : ScanConfig) (acc : ℚ × Point3) (pvs : List (Point3 × ℚ)) : ℚ × Point3 :=
  pvs.foldl (scanStep cfg) acc

/-- The locator contract `locateTip(points, fieldValues, config)`: run the
scan with the initialization of lines 117-118
(`_global_max_distance_sq = -1`, `_global_current_tip = _initial_tip`)
and return the resulting tip. -/
def locateTip (cfg : ScanConfig) (points : List Point3) (vals : List ℚ) : Point3 :=
  (scanBlock cfg (-1, cfg.initial_tip) (points.zip vals)).2

/-- Squared distances of the qualifying entries, in input order. -/
def qdists (cfg : ScanConfig) (pvs : List (Point3 × ℚ)) : List ℚ :=
  (pvs.filter fun pv => decide (qualifies cfg pv.1 pv.2)).map
    fun pv => distSq pv.1 cfg.initial_tip

/-! ## The stateful plugin layer

The Python class keeps the accumulator in the instance fields
`self._global_current_tip` and `self._global_max_distance_sq`; `RequestData`
re-initializes them (lines 117-118) and then calls `ProcessBlock`, which
mutates them through the loop.  We model the instance as a record threaded
explicitly, and the caller-owned input/output data objects as a `World`. -/

/-- Named point-data arrays of a block (`block.GetPointData()`). -/
structure PointData where
  arrays : List (String × List ℚ)
deriving DecidableEq

/-- A `vtkUnstructuredGrid` block: point coordinates plus point data. -/
structure Block where
  points : List Point3
  pointData : PointData
deriving DecidableEq

/-- `point_data.GetArray(name)`: first array with the given name, if any. -/
def getArray (pd : PointData) (name : String) : Option (List ℚ) :=
  (pd.arrays.find? fun a => a.1 == name).map fun a => a.2

/-- The input data object: either the expected `vtkUnstructuredGrid` or
something else (the `isinstance` check of line 120 fails). -/
inductive InputData where
  | ugrid (b : Block)
  | unsupported
deriving DecidableEq

/-- The instance fields of the `PDcracktip` object that `RequestData` and
`ProcessBlock` read or write. -/
structure FilterState where
  d_c : ℚ
  array_name : String
  initial_tip : Point3
  global_current_tip : Point3
  global_max_distance_sq : ℚ
  region_min : Point3
  region_max : Point3
deriving DecidableEq

/-- The scan configuration read from the instance fields. -/
def FilterState.config (s : FilterState) : ScanConfig :=
  ⟨s.d_c, s.initial_tip, s.region_min, s.region_max⟩

/-- The error diagnostics printed by the code paths we model. -/
inductive Diagnostic where
  | fieldNotFound (name : String)
  | unsupportedInputType
deriving DecidableEq

/-- `ProcessBlock` (lines 81-109) on a `vtkUnstructuredGrid` block: look up
the array; on failure print the error and return (state untouched);
otherwise run the scan loop, updating the two accumulator fields. -/
def ProcessBlock (s : FilterState) (b : Block) : FilterState × List Diagnostic :=
  match getArray b.pointData s.array_name with
  | none => (s, [Diagnostic.fieldNotFound s.array_name])
  | some vals =>
      let acc := scanBlock s.config (s.global_max_distance_sq, s.global_current_tip)
        (b.points.zip vals)
      ({ s with global_max_distance_sq := acc.1, global_current_tip := acc.2 }, [])

/-- The output data object: points plus cells (cell type, point ids).  The
filter emits one point and one `VTK_VERTEX` cell referencing it. -/
structure Output where
  points : List Point3
  cells : List (Nat × List Nat)
deriving DecidableEq

/-- The VTK cell-type code for a vertex cell. -/
def VTK_VERTEX : Nat := 1

/-- The caller-owned data visible to one invocation: the filter instance,
the input data object, and the downstream output data object. -/
structure World where
  self : FilterState
  input : InputData
  output : Option Output
deriving DecidableEq

/-- The accumulator re-initialization of lines 117-118. -/
def initRequest (s : FilterState) : FilterState :=
  { s with global_max_distance_sq := -1, global_current_tip := s.initial_tip }

/-- `RequestData` (lines 111-136): reset the accumulator fields, check the
input type (returning status 0 and leaving the output object untouched on
an unsupported type), otherwise process the block and overwrite the output
object with a single-point, single-vertex-cell grid.  Returns the updated
world, the integer status, and the emitted error diagnostics. -/
def RequestData (w : World) : World × Nat × List Diagnostic :=
  let s1 := initRequest w.self
  match w.input with
  | InputData.ugrid b =>
      let r := ProcessBlock s1 b
      ({ self := r.1, input := w.input,
         output := some { points := [r.1.global_current_tip],
                          cells := [(VTK_VERTEX, [0])] } }, 1, r.2)
  | InputData.unsupported =>
      ({ self := s1, input := w.input, output := w.output }, 0,
        [Diagnostic.unsupportedInputType])

/-! ## Basic facts about squared distance -/

theorem distSq_nonneg (p q : Point3) : 0 ≤ distSq p q := by
  unfold distSq; positivity

theorem distSq_self (p : Point3) : distSq p p = 0 := by
  unfold distSq; ring

theorem neg_one_lt_distSq (p q : Point3) : (-1 : ℚ) < distSq p q :=
  lt_of_lt_of_le (by norm_num) (distSq_nonneg p q)

/-! ## Facts about `List.foldl max` -/

theorem le_foldl_max (l : List ℚ) (b : ℚ) : b ≤ l.foldl max b := by
  induction l generalizing b with
  | nil => exact le_refl b
  | cons a t ih => exact le_trans (le_max_left b a) (ih (max b a))

theorem mem_le_foldl_max (l : List ℚ) (b d : ℚ) (hd : d ∈ l) : d ≤ l.foldl max b := by
  induction l generalizing b with
  | nil => cases hd
  | cons a t ih =>
    rcases List.mem_cons.mp hd with h | h
    · subst h
      exact le_trans (le_max_right b d) (le_foldl_max t (max b d))
    · exact ih (max b a) h

theorem foldl_max_eq_or_mem (l : List ℚ) (b : ℚ) :
    l.foldl max b = b ∨ l.foldl max b ∈ l := by
  induction l generalizing b with
  | nil => left; rfl
  | cons a t ih =>
    rcases ih (max b a) with h | h
    · rcases max_choice b a with hb | hb
      · left; rw [List.foldl_cons, h, hb]
      · right; rw [List.foldl_cons, h, hb]; exact List.mem_cons_self a t
    · right; exact List.mem_cons_of_mem a h

/-! ## Unfolding lemmas for one scan step -/

theorem scanStep_pos_lt (cfg : ScanConfig) (acc : ℚ × Point3) (pv : Point3 × ℚ)
    (hq : qualifies cfg pv.1 pv.2) (hlt : acc.1 < distSq pv.1 cfg.initial_tip) :
    scanStep cfg acc pv = (distSq pv.1 cfg.initial_tip, pv.1) := by
  simp [scanStep, hq, hlt]

theorem scanStep_pos_le (cfg : ScanConfig) (acc : ℚ × Point3) (pv : Point3 × ℚ)
    (hq : qualifies cfg pv.1 pv.2) (hle : distSq pv.1 cfg.initial_tip ≤ acc.1) :
    scanStep cfg acc pv = acc := by
  simp [scanStep, hq, not_lt.mpr hle]

theorem scanStep_neg (cfg : ScanConfig) (acc : ℚ × Point3) (pv : Point3 × ℚ)
    (hq : ¬ qualifies cfg pv.1 pv.2) : scanStep cfg acc pv = acc := by
  simp [scanStep, hq]

theorem scanBlock_cons (cfg : ScanConfig) (acc : ℚ × Point3) (pv : Point3 × ℚ)
    (t : List (Point3 × ℚ)) :
    scanBlock cfg acc (pv :: t) = scanBlock cfg (scanStep cfg acc pv) t := rfl

theorem qdists_cons_pos (cfg : ScanConfig) (pv : Point3 × ℚ) (t : List (Point3 × ℚ))
    (hq : qualifies cfg pv.1 pv.2) :
    qdists cfg (pv :: t) = distSq pv.1 cfg.initial_tip :: qdists cfg t := by
  simp [qdists, List.filter_cons, hq]

theorem qdists_cons_neg (cfg : ScanConfig) (pv : Point3 × ℚ) (t : List (Point3 × ℚ))
    (hq : ¬ qualifies cfg pv.1 pv.2) :
    qdists cfg (pv :: t) = qdists cfg t := by
  simp [qdists, List.filter_cons, hq]

/-! ## The scan invariants -/

theorem scanBlock_fst (cfg : ScanConfig) (pvs : List (Point3 × ℚ)) (acc : ℚ × Point3) :
    (scanBlock cfg acc pvs).1 = (qdists cfg pvs).foldl max acc.1 := by
  induction pvs generalizing acc with
  | nil => rfl
  | cons pv t ih =>
    rw [scanBlock_cons]
    by_cases hq : qualifies cfg pv.1 pv.2
    · rw [qdists_cons_pos cfg pv t hq, List.foldl_cons]
      by_cases hlt : acc.1 < distSq pv.1 cfg.initial_tip
      · rw [scanStep_pos_lt cfg acc pv hq hlt, ih, max_eq_right hlt.le]
      · rw [scanStep_pos_le cfg acc pv hq (not_lt.mp hlt), ih,
          max_eq_left (not_lt.mp hlt)]
    · rw [qdists_cons_neg cfg pv t hq, scanStep_neg cfg acc pv hq, ih]

theorem scanBlock_snd_of_le (cfg : ScanConfig) (pvs : List (Point3 × ℚ)) (acc : ℚ × Point3)
    (h : ∀ d ∈ qdists cfg pvs, d ≤ acc.1) : (scanBlock cfg acc pvs).2 = acc.2 := by
  induction pvs generalizing acc with
  | nil => rfl
  | cons pv t ih =>
    rw [scanBlock_cons]
    by_cases hq : qualifies cfg pv.1 pv.2
    · have hd : distSq pv.1 cfg.initial_tip ≤ acc.1 := by
        refine h _ ?_
        rw [qdists_cons_pos cfg pv t hq]
        exact List.mem_cons_self _ _
      rw [scanStep_pos_le cfg acc pv hq hd]
      refine ih acc fun d hdm => h d ?_
      rw [qdists_cons_pos cfg pv t hq]
      exact List.mem_cons_of_mem _ hdm
    · rw [scanStep_neg cfg acc pv hq]
      refine ih acc fun d hdm => h d ?_
      rw [qdists_cons_neg cfg pv t hq]
      exact hdm

/-- The Boolean test "this entry qualifies and realizes squared distance `m`". -/
def hitsMax (cfg : ScanConfig) (m : ℚ) (pv : Point3 × ℚ) : Bool :=
  decide (qualifies cfg pv.1 pv.2) && decide (distSq pv.1 cfg.initial_tip = m)

theorem scanBlock_snd_find (cfg : ScanConfig) (pvs : List (Point3 × ℚ))
    (acc : ℚ × Point3) (m : ℚ) (hm : m = (qdists cfg pvs).foldl max acc.1)
    (hlt : acc.1 < m) :
    ∃ pv, pvs.find? (hitsMax cfg m) = some pv ∧ (scanBlock cfg acc pvs).2 = pv.1 ∧
      distSq pv.1 cfg.initial_tip = m ∧ qualifies cfg pv.1 pv.2 := by
  induction pvs generalizing acc with
  | nil =>
    simp only [qdists, List.filter_nil, List.map_nil, List.foldl_nil] at hm
    exact absurd hm (ne_of_gt hlt)
  | cons pv t ih =>
    rw [scanBlock_cons]
    by_cases hq : qualifies cfg pv.1 pv.2
    · by_cases hlt2 : acc.1 < distSq pv.1 cfg.initial_tip
      · have hm2 : m = (qdists cfg t).foldl max (distSq pv.1 cfg.initial_tip) := by
          rw [hm, qdists_cons_pos cfg pv t hq, List.foldl_cons,
            max_eq_right hlt2.le]
        rw [scanStep_pos_lt cfg acc pv hq hlt2]
        by_cases hdm : distSq pv.1 cfg.initial_tip = m
        · refine ⟨pv, ?_, ?_, hdm, hq⟩
          · exact List.find?_cons_of_pos t (by simp [hitsMax, hq, hdm])
          · refine scanBlock_snd_of_le cfg t _ fun d hd => ?_
            calc d ≤ (qdists cfg t).foldl max (distSq pv.1 cfg.initial_tip) :=
                  mem_le_foldl_max _ _ _ hd
              _ = m := hm2.symm
              _ = distSq pv.1 cfg.initial_tip := hdm.symm
        · have hlt3 : distSq pv.1 cfg.initial_tip < m :=
            lt_of_le_of_ne (hm2 ▸ le_foldl_max _ _) hdm
          rw [List.find?_cons_of_neg t (by simp [hitsMax, hdm])]
          exact ih _ hm2 hlt3
      · have hle : distSq pv.1 cfg.initial_tip ≤ acc.1 := not_lt.mp hlt2
        have hm2 : m = (qdists cfg t).foldl max acc.1 := by
          rw [hm, qdists_cons_pos cfg pv t hq, List.foldl_cons, max_eq_left hle]
        have hdm : distSq pv.1 cfg.initial_tip ≠ m :=
          ne_of_lt (lt_of_le_of_lt hle hlt)
        rw [scanStep_pos_le cfg acc pv hq hle,
          List.find?_cons_of_neg t (by simp [hitsMax, hdm])]
        exact ih _ hm2 hlt
    · have hm2 : m = (qdists cfg t).foldl max acc.1 := by
        rw [hm, qdists_cons_neg cfg pv t hq]
      rw [scanStep_neg cfg acc pv hq,
        List.find?_cons_of_neg t (by simp [hitsMax, hq])]
      exact ih _ hm2 hlt

/-- `List.find?` returns the entry at the first index whose test passes. -/
theorem find?_eq_of_first {α : Type} (p : α → Bool) (l : List α) (i : Nat)
    (hi : i < l.length) (hp : p (l.get ⟨i, hi⟩) = true)
    (hmin : ∀ j (hj : j < l.length), j < i → p (l.get ⟨j, hj⟩) = false) :
    l.find? p = some (l.get ⟨i, hi⟩) := by
  induction l generalizing i with
  | nil => exact absurd hi (Nat.not_lt_zero i)
  | cons a t ih =>
    cases i with
    | zero => exact List.find?_cons_of_pos t hp
    | succ k =>
      have ha : p a = false :=
        hmin 0 (Nat.succ_pos t.length) (Nat.succ_pos k)
      rw [List.find?_cons_of_neg t (by simp [ha])]
      exact ih k (Nat.lt_of_succ_lt_succ hi) hp
        fun j hj hjk => hmin (j + 1) (Nat.succ_lt_succ hj) (Nat.succ_lt_succ hjk)

theorem qdists_nonneg (cfg : ScanConfig) (pvs : List (Point3 × ℚ)) :
    ∀ d ∈ qdists cfg pvs, 0 ≤ d := by
  intro d hd
  simp only [qdists, List.mem_map, List.mem_filter] at hd
  obtain ⟨pv, _, rfl⟩ := hd
  exact distSq_nonneg _ _

theorem mem_qdists_of_qualifies (cfg : ScanConfig) (pvs : List (Point3 × ℚ))
    (pv : Point3 × ℚ) (hmem : pv ∈ pvs) (hq : qualifies cfg pv.1 pv.2) :
    distSq pv.1 cfg.initial_tip ∈ qdists cfg pvs := by
  simp only [qdists, List.mem_map, List.mem_filter]
  exact ⟨pv, ⟨hmem, by simpa using hq⟩, rfl⟩

/-! ## Concrete inputs used by the witnesses -/

def cfgW : ScanConfig := ⟨1, ⟨0, 0, 0⟩, ⟨-10, -10, -10⟩, ⟨10, 10, 10⟩⟩

def psW : List Point3 := [⟨0, 0, 0⟩, ⟨1, 0, 0⟩, ⟨2, 0, 0⟩]

def vsW : List ℚ := [2, 2, 0]

def vsLow : List ℚ := [0, 0, 0]

def cfgDeg : ScanConfig := ⟨1, ⟨0, 0, 0⟩, ⟨10, -10, -10⟩, ⟨-10, 10, 10⟩⟩

def psTie : List Point3 := [⟨1, 0, 0⟩, ⟨0, 1, 0⟩]

def vsTie : List ℚ := [2, 2]

/-! ## Claims -/

/-- C1: for every input point set, the point returned by the locator has
squared Euclidean distance from the reference point equal to the maximum
squared distance over all qualifying points (it is attained by a qualifying
point and bounds every qualifying distance from above); if no point
qualifies, the result is the reference point and that distance is 0. -/
theorem locateTip_returns_farthest (cfg : ScanConfig) (ps : List Point3) (vs : List ℚ) :
    (qdists cfg (ps.zip vs) = [] →
      locateTip cfg ps vs = cfg.initial_tip ∧
        distSq (locateTip cfg ps vs) cfg.initial_tip = 0) ∧
    (qdists cfg (ps.zip vs) ≠ [] →
      distSq (locateTip cfg ps vs) cfg.initial_tip ∈ qdists cfg (ps.zip vs) ∧
        ∀ d ∈ qdists cfg (ps.zip vs),
          d ≤ distSq (locateTip cfg ps vs) cfg.initial_tip) := by
  constructor
  · intro h
    have ht : locateTip cfg ps vs = cfg.initial_tip := by
      refine scanBlock_snd_of_le cfg _ _ ?_
      rw [h]
      intro d hd
      cases hd
    exact ⟨ht, by rw [ht, distSq_self]⟩
  · intro h
    obtain ⟨d0, hd0⟩ := List.exists_mem_of_ne_nil _ h
    have hm : (-1 : ℚ) < (qdists cfg (ps.zip vs)).foldl max (-1) :=
      lt_of_lt_of_le
        (lt_of_lt_of_le (by norm_num) (qdists_nonneg cfg (ps.zip vs) d0 hd0))
        (mem_le_foldl_max _ _ _ hd0)
    obtain ⟨pv, _, hsnd, hdm, _⟩ :=
      scanBlock_snd_find cfg (ps.zip vs) (-1, cfg.initial_tip) _ rfl hm
    have hres : locateTip cfg ps vs = pv.1 := hsnd
    constructor
    · rw [hres, hdm]
      rcases foldl_max_eq_or_mem (qdists cfg (ps.zip vs)) (-1) with he | hmem
      · exact absurd he (ne_of_gt hm)
      · exact hmem
    · intro d hd
      rw [hres, hdm]
      exact mem_le_foldl_max _ _ _ hd

/-- Witness for C1, shaped like spec example 1: points (0,0,0),(1,0,0),(2,0,0)
where the first two qualify and the last fails the threshold. -/
theorem locateTip_returns_farthest_witness :
    distSq (locateTip cfgW psW vsW) cfgW.initial_tip ∈ qdists cfgW (psW.zip vsW) ∧
      ∀ d ∈ qdists cfgW (psW.zip vsW),
        d ≤ distSq (locateTip cfgW psW vsW) cfgW.initial_tip :=
  (locateTip_returns_farthest cfgW psW vsW).2 (by
    norm_num [qdists, psW, vsW, cfgW, qualifies, inRegion, distSq, List.filter]
    simp)

/-- C2: whenever no zipped entry satisfies the region-and-threshold
predicate, the locator returns exactly the reference point; in particular
it does so for every degenerate region (min above max on some axis) and
for the empty point set. -/
theorem locateTip_default_reference (cfg : ScanConfig) (ps : List Point3) (vs : List ℚ) :
    ((∀ pv ∈ ps.zip vs, ¬ qualifies cfg pv.1 pv.2) →
      locateTip cfg ps vs = cfg.initial_tip) ∧
    ((cfg.region_max.x < cfg.region_min.x ∨ cfg.region_max.y < cfg.region_min.y ∨
        cfg.region_max.z < cfg.region_min.z) →
      locateTip cfg ps vs = cfg.initial_tip) ∧
    locateTip cfg [] vs = cfg.initial_tip := by
  have key : (∀ pv ∈ ps.zip vs, ¬ qualifies cfg pv.1 pv.2) →
      locateTip cfg ps vs = cfg.initial_tip := by
    intro h
    refine scanBlock_snd_of_le cfg _ _ fun d hd => ?_
    simp only [qdists, List.mem_map, List.mem_filter] at hd
    obtain ⟨pv, ⟨hmem, hq⟩, rfl⟩ := hd
    exact absurd (of_decide_eq_true hq) (h pv hmem)
  refine ⟨key, fun hdeg => key fun pv _ hq => ?_, rfl⟩
  obtain ⟨⟨h1, h2, h3, h4, h5, h6⟩, _⟩ := hq
  rcases hdeg with h | h | h
  · exact absurd (le_trans h1 h2) (not_le.mpr h)
  · exact absurd (le_trans h3 h4) (not_le.mpr h)
  · exact absurd (le_trans h5 h6) (not_le.mpr h)

/-- Witness for C2: with all field values at 0 no point qualifies, and
with a region whose minimum exceeds its maximum on the x axis no point
can qualify; both invocations return the reference point. -/
theorem locateTip_default_reference_witness :
    locateTip cfgW psW vsLow = cfgW.initial_tip ∧
      locateTip cfgDeg psW vsW = cfgDeg.initial_tip :=
  ⟨(locateTip_default_reference cfgW psW vsLow).1 (by
      norm_num [psW, vsLow, cfgW, qualifies, inRegion]),
   (locateTip_default_reference cfgDeg psW vsW).2.1 (by norm_num [cfgDeg])⟩

/-- C3: a zipped entry qualifies iff the point is inside the inclusive
region on all three axes and its field value strictly exceeds the
threshold; a value exactly at the threshold never qualifies, and the
region-bound corner points themselves pass the region test whenever the
bounds are ordered. -/
theorem qualifies_iff (cfg : ScanConfig) (p : Point3) (v : ℚ) :
    (qualifies cfg p v ↔
      (cfg.region_min.x ≤ p.x ∧ p.x ≤ cfg.region_max.x ∧
       cfg.region_min.y ≤ p.y ∧ p.y ≤ cfg.region_max.y ∧
       cfg.region_min.z ≤ p.z ∧ p.z ≤ cfg.region_max.z ∧
       cfg.d_c < v)) ∧
    (v = cfg.d_c → ¬ qualifies cfg p v) ∧
    ((cfg.region_min.x ≤ cfg.region_max.x ∧ cfg.region_min.y ≤ cfg.region_max.y ∧
        cfg.region_min.z ≤ cfg.region_max.z) →
      inRegion cfg.region_min cfg.region_max cfg.region_min ∧
        inRegion cfg.region_min cfg.region_max cfg.region_max) := by
  refine ⟨?_, ?_, ?_⟩
  · unfold qualifies inRegion
    tauto
  · rintro rfl ⟨_, hlt⟩
    exact lt_irrefl _ hlt
  · rintro ⟨h1, h2, h3⟩
    exact ⟨⟨le_refl _, h1, le_refl _, h2, le_refl _, h3⟩,
      ⟨h1, le_refl _, h2, le_refl _, h3, le_refl _⟩⟩

/-- Witness for C3: at the threshold value the origin does not qualify,
and the corner points of the concrete region pass the region test. -/
theorem qualifies_iff_witness :
    ¬ qualifies cfgW ⟨0, 0, 0⟩ cfgW.d_c ∧
      inRegion cfgW.region_min cfgW.region_max cfgW.region_min :=
  ⟨(qualifies_iff cfgW ⟨0, 0, 0⟩ cfgW.d_c).2.1 rfl,
   ((qualifies_iff cfgW ⟨0, 0, 0⟩ cfgW.d_c).2.2 (by norm_num [cfgW])).1⟩

/-- C4: when two (or more) qualifying entries are tied at the maximal
squared distance, the locator returns the one with the lowest index: if
the entry at index `i` qualifies, attains the maximal qualifying distance,
and no entry at any index below `i` qualifies with that same distance,
then the result is the point at index `i` — even when a later index `j`
carries a qualifying point at the very same distance. -/
theorem locateTip_tie_break (cfg : ScanConfig) (ps : List Point3) (vs : List ℚ)
    (i j : Nat) (hi : i < (ps.zip vs).length) (hj : j < (ps.zip vs).length)
    (hij : i < j)
    (hqi : qualifies cfg ((ps.zip vs).get ⟨i, hi⟩).1 ((ps.zip vs).get ⟨i, hi⟩).2)
    (hqj : qualifies cfg ((ps.zip vs).get ⟨j, hj⟩).1 ((ps.zip vs).get ⟨j, hj⟩).2)
    (htie : distSq ((ps.zip vs).get ⟨i, hi⟩).1 cfg.initial_tip =
      distSq ((ps.zip vs).get ⟨j, hj⟩).1 cfg.initial_tip)
    (hmax : ∀ d ∈ qdists cfg (ps.zip vs),
      d ≤ distSq ((ps.zip vs).get ⟨i, hi⟩).1 cfg.initial_tip)
    (hfirst : ∀ k (hk : k < (ps.zip vs).length), k < i →
      hitsMax cfg (distSq ((ps.zip vs).get ⟨i, hi⟩).1 cfg.initial_tip)
        ((ps.zip vs).get ⟨k, hk⟩) = false) :
    locateTip cfg ps vs = ((ps.zip vs).get ⟨i, hi⟩).1 := by
  have hmemD : distSq ((ps.zip vs).get ⟨i, hi⟩).1 cfg.initial_tip ∈
      qdists cfg (ps.zip vs) :=
    mem_qdists_of_qualifies cfg _ _ (List.get_mem _ i hi) hqi
  have hDm : (qdists cfg (ps.zip vs)).foldl max (-1) =
      distSq ((ps.zip vs).get ⟨i, hi⟩).1 cfg.initial_tip := by
    refine le_antisymm ?_ (mem_le_foldl_max _ _ _ hmemD)
    rcases foldl_max_eq_or_mem (qdists cfg (ps.zip vs)) (-1) with he | hmem
    · rw [he]
      exact le_trans (by norm_num) (distSq_nonneg _ _)
    · exact hmax _ hmem
  have hlt : (-1 : ℚ) < (qdists cfg (ps.zip vs)).foldl max (-1) := by
    rw [hDm]
    exact neg_one_lt_distSq _ _
  obtain ⟨pv, hfind, hsnd, _, _⟩ :=
    scanBlock_snd_find cfg (ps.zip vs) (-1, cfg.initial_tip) _ rfl hlt
  have hfind2 : (ps.zip vs).find?
      (hitsMax cfg ((qdists cfg (ps.zip vs)).foldl max (-1))) =
      some ((ps.zip vs).get ⟨i, hi⟩) := by
    refine find?_eq_of_first _ _ i hi ?_ ?_
    · rw [hDm]
      simp only [hitsMax, Bool.and_eq_true, decide_eq_true_eq]
      exact ⟨hqi, trivial⟩
    · intro k hk hki
      rw [hDm]
      exact hfirst k hk hki
  rw [hfind] at hfind2
  have hpv : pv = (ps.zip vs).get ⟨i, hi⟩ := Option.some_inj.mp hfind2
  have hres : locateTip cfg ps vs = pv.1 := hsnd
  rw [hres, hpv]

/-- Witness for C4: the points (1,0,0) and (0,1,0) both qualify and are
tied at squared distance 1 from the origin; the lower-indexed (1,0,0) is
returned. -/
theorem locateTip_tie_break_witness : locateTip cfgW psTie vsTie = ⟨1, 0, 0⟩ := by
  have h := locateTip_tie_break cfgW psTie vsTie 0 1
    (by norm_num [psTie, vsTie]) (by norm_num [psTie, vsTie]) (by norm_num)
    (by norm_num [psTie, vsTie, cfgW, qualifies, inRegion])
    (by norm_num [psTie, vsTie, cfgW, qualifies, inRegion])
    (by norm_num [psTie, vsTie, cfgW, distSq])
    (by norm_num [qdists, psTie, vsTie, cfgW, qualifies, inRegion, distSq,
      List.filter])
    (fun k hk hk0 => absurd hk0 (Nat.not_lt_zero k))
  simpa [psTie, vsTie] using h

/-- C5: the reduction starts from the reference point and the sentinel
distance -1, which is strictly below every real squared distance, so the
first qualifying entry is always accepted as the running best — even one
coincident with the reference point. -/
theorem scan_init_sentinel (cfg : ScanConfig) :
    (∀ p q : Point3, (-1 : ℚ) < distSq p q) ∧
    (∀ ps vs, locateTip cfg ps vs =
      (scanBlock cfg (-1, cfg.initial_tip) (ps.zip vs)).2) ∧
    (∀ p v, qualifies cfg p v →
      scanStep cfg (-1, cfg.initial_tip) (p, v) = (distSq p cfg.initial_tip, p)) :=
  ⟨neg_one_lt_distSq, fun _ _ => rfl,
   fun p v hq => scanStep_pos_lt cfg (-1, cfg.initial_tip) (p, v) hq
     (neg_one_lt_distSq p cfg.initial_tip)⟩

/-- Witness for C5: a qualifying point coincident with the reference point
(squared distance 0) is accepted on the first step. -/
theorem scan_init_sentinel_witness :
    scanStep cfgW (-1, cfgW.initial_tip) (cfgW.initial_tip, 2) =
      (distSq cfgW.initial_tip cfgW.initial_tip, cfgW.initial_tip) :=
  (scan_init_sentinel cfgW).2.2 cfgW.initial_tip 2
    (by norm_num [cfgW, qualifies, inRegion])

/-- C6: when the requested array name is absent from the block's point
data, `RequestData` emits the field-not-found diagnostic, still produces
an output holding exactly the (unchanged) reference point, and returns
status 1 — it does not signal failure to the host. -/
theorem requestData_field_not_found (w : World) (b : Block)
    (hin : w.input = InputData.ugrid b)
    (hmiss : getArray b.pointData w.self.array_name = none) :
    RequestData w =
      ({ self := initRequest w.self, input := w.input,
         output := some { points := [w.self.initial_tip],
                          cells := [(VTK_VERTEX, [0])] } }, 1,
        [Diagnostic.fieldNotFound w.self.array_name]) := by
  simp [RequestData, hin, ProcessBlock, initRequest, hmiss]

/-- Witness block for C6: point data carries only an array named `u`. -/
def blockMiss : Block := ⟨[⟨1, 0, 0⟩], ⟨[("u", [2])]⟩⟩

/-- Witness instance state for C6 and the stateful claims: array name `d`,
threshold 1, reference point at the origin, a stale accumulator. -/
def stateW : FilterState :=
  ⟨1, "d", ⟨0, 0, 0⟩, ⟨5, 5, 5⟩, 99, ⟨-10, -10, -10⟩, ⟨10, 10, 10⟩⟩

/-- Witness world for C6. -/
def worldMiss : World := ⟨stateW, InputData.ugrid blockMiss, none⟩

/-- Witness for C6 at a concrete world whose block lacks the array `d`. -/
theorem requestData_field_not_found_witness :
    RequestData worldMiss =
      ({ self := initRequest worldMiss.self, input := worldMiss.input,
         output := some { points := [worldMiss.self.initial_tip],
                          cells := [(VTK_VERTEX, [0])] } }, 1,
        [Diagnostic.fieldNotFound worldMiss.self.array_name]) :=
  requestData_field_not_found worldMiss blockMiss rfl (by decide)

/-- C7: on an input that is not the expected point-set type, `RequestData`
reports the unsupported-input condition, returns status 0 (signalling
failure to the caller), and leaves the downstream output object exactly as
it was — no output is produced. -/
theorem requestData_unsupported_input (w : World)
    (hin : w.input = InputData.unsupported) :
    RequestData w =
      ({ self := initRequest w.self, input := w.input, output := w.output }, 0,
        [Diagnostic.unsupportedInputType]) := by
  simp [RequestData, hin]

/-- Witness world for C7: an unsupported input object. -/
def worldUns : World := ⟨stateW, InputData.unsupported, none⟩

/-- Witness for C7 at a concrete world with an unsupported input. -/
theorem requestData_unsupported_input_witness :
    RequestData worldUns =
      ({ self := initRequest worldUns.self, input := worldUns.input,
         output := worldUns.output }, 0, [Diagnostic.unsupportedInputType]) :=
  requestData_unsupported_input worldUns rfl

/-- Witness block whose point data does carry the array `d`, with one
qualifying point at (1,0,0). -/
def blockRun : Block := ⟨[⟨1, 0, 0⟩], ⟨[("d", [2])]⟩⟩

/-- Witness world: stale accumulator values (5,5,5) / 99 left in the
instance fields, and an input block with one qualifying point. -/
def worldRun : World := ⟨stateW, InputData.ugrid blockRun, none⟩

/-- C8 counterexample: the running-maximum accumulator IS a shared mutable
instance field (`self._global_current_tip` / `self._global_max_distance_sq`),
not a local scoped to one invocation: an invocation overwrites both fields
of the persistent instance, and the written values survive the call. -/
theorem accumulator_shared_field_counterexample :
    (RequestData worldRun).1.self.global_current_tip ≠
        worldRun.self.global_current_tip ∧
      (RequestData worldRun).1.self.global_max_distance_sq ≠
        worldRun.self.global_max_distance_sq := by
  norm_num [RequestData, worldRun, stateW, blockRun, ProcessBlock, initRequest,
    getArray, scanBlock, scanStep, qualifies, inRegion, distSq,
    FilterState.config, List.find?]

theorem initRequest_idem (s : FilterState) :
    initRequest (initRequest s) = initRequest s := by
  cases s
  rfl

theorem RequestData_initRequest (w : World) :
    RequestData w = RequestData ⟨initRequest w.self, w.input, w.output⟩ := by
  rcases w with ⟨s, i, o⟩
  cases i <;> simp [RequestData, initRequest_idem]

/-- C8 amended: the accumulator is stored in shared mutable instance
fields that persist between invocations, but `RequestData` re-initializes
both fields before scanning (lines 117-118), so any two invocations with
identical configuration, input and downstream output object produce
identical results regardless of the accumulator values earlier invocations
left behind. -/
theorem requestData_reset_determinism (w1 w2 : World)
    (hdc : w1.self.d_c = w2.self.d_c)
    (han : w1.self.array_name = w2.self.array_name)
    (hit : w1.self.initial_tip = w2.self.initial_tip)
    (hrmin : w1.self.region_min = w2.self.region_min)
    (hrmax : w1.self.region_max = w2.self.region_max)
    (hin : w1.input = w2.input) (hout : w1.output = w2.output) :
    RequestData w1 = RequestData w2 := by
  have hs : initRequest w1.self = initRequest w2.self := by
    unfold initRequest
    rw [hdc, han, hit, hrmin, hrmax]
  rw [RequestData_initRequest w1, RequestData_initRequest w2, hs, hin, hout]

/-- A second witness world for C8, differing from `worldRun` only in the
stale accumulator fields. -/
def worldRunB : World :=
  ⟨⟨1, "d", ⟨0, 0, 0⟩, ⟨7, 7, 7⟩, 3, ⟨-10, -10, -10⟩, ⟨10, 10, 10⟩⟩,
    InputData.ugrid blockRun, none⟩

/-- Witness for the amended C8: two invocations whose instances differ only
in the leftover accumulator fields give identical results. -/
theorem requestData_reset_determinism_witness :
    RequestData worldRun = RequestData worldRunB :=
  requestData_reset_determinism worldRun worldRunB rfl rfl rfl rfl rfl rfl rfl

/-- C9: no invocation modifies the caller-owned input data object — the
point coordinates and the named field arrays it holds are returned to the
caller exactly as given. -/
theorem requestData_preserves_input (w : World) :
    (RequestData w).1.input = w.input := by
  rcases w with ⟨s, i, o⟩
  cases i <;> rfl

/-- C10: whenever the input is the expected point-set type, the operation
succeeds (status 1) and the produced output contains exactly one point —
the located tip held in the instance after the scan — and exactly one
`VTK_VERTEX` cell referencing that point (point id 0). -/
theorem requestData_output_single_vertex (w : World) (b : Block)
    (hin : w.input = InputData.ugrid b) :
    (RequestData w).2.1 = 1 ∧
      (RequestData w).1.output =
        some { points := [(RequestData w).1.self.global_current_tip],
               cells := [(VTK_VERTEX, [0])] } := by
  rcases w with ⟨s, i, o⟩
  obtain rfl : i = InputData.ugrid b := hin
  exact ⟨rfl, rfl⟩

/-- Witness for C10 at a concrete supported input. -/
theorem requestData_output_single_vertex_witness :
    (RequestData worldRun).2.1 = 1 ∧
      (RequestData worldRun).1.output =
        some { points := [(RequestData worldRun).1.self.global_current_tip],
               cells := [(VTK_VERTEX, [0])] } :=
  requestData_output_single_vertex worldRun blockRun rfl
